import Mathlib

/-!
Shallow embedding of the vite hono file-route generator.

The source plugin scans a folder recursively, filters the listing to
non-directory entries whose final dot-separated name segment is "js" or
"ts" (case-insensitively), computes each import specifier relative to the
destination file, and writes a manifest of import lines plus one
aggregate default export.  JS array/string operations are embedded as
structural Lean functions over `List Char` / `List String`.
-/

namespace HonoRouteGen

/-- JS `s.split(c)` for a single-character separator, over the char list. -/
def splitChar (c : Char) : List Char → List (List Char)
  | [] => [[]]
  | x :: xs =>
    match splitChar c xs with
    | [] => [[]]
    | h :: t => if x = c then [] :: h :: t else (x :: h) :: t

/-- JS `s.split(c)` returning strings. -/
def jsSplit (c : Char) (s : String) : List String :=
  (splitChar c s.data).map String.mk

/-- One left-to-right non-overlapping pass of `replaceAll("/./", "/")`,
as JS performs it: after a match, the scan continues after the consumed
pattern characters. -/
def replaceSlashDotSlash : List Char → List Char
  | '/' :: '.' :: '/' :: rest => '/' :: replaceSlashDotSlash rest
  | x :: rest => x :: replaceSlashDotSlash rest
  | [] => []

/-- JS `replaceAll("\\", "/")`: every backslash becomes a forward slash. -/
def replaceBackslash (l : List Char) : List Char :=
  l.map (fun c => if c = '\\' then '/' else c)

/-- `cleanupPath` from the source: first collapse `/./`, then convert
backslashes. -/
def cleanupPath (p : String) : String :=
  ⟨replaceBackslash (replaceSlashDotSlash p.data)⟩

/-- Whether a char list contains the substring `/./`. -/
def hasDotSeg : List Char → Bool
  | '/' :: '.' :: '/' :: _ => true
  | _ :: rest => hasDotSeg rest
  | [] => false

/-- Lower-case a string character-wise (JS `toLowerCase` on ASCII names). -/
def toLowerStr (s : String) : String :=
  ⟨s.data.map Char.toLower⟩

/-- JS truthiness-based `a || b` on an optional string: an absent or empty
string falls back to the default. -/
def jsOr (s : Option String) (d : String) : String :=
  match s with
  | some v => if v = "" then d else v
  | none => d

/-! ## Node `path.posix.relative`, modelled with an explicit cwd

`path.relative(from, to)` resolves both arguments against the process
working directory, normalizes `.` and `..` segments, drops the common
segment prefix, and joins `..` steps with the remaining target segments. -/

/-- Non-empty path segments of a path string. -/
def nonEmptySegs (s : String) : List String :=
  (jsSplit '/' s).filter (fun x => x ≠ "")

/-- Whether a path string is absolute (starts with a slash). -/
def isAbsolute (s : String) : Bool :=
  match s.data with
  | '/' :: _ => true
  | _ => false

/-- Normalize an absolute segment list: drop `.`; `..` pops the previous
segment (and is dropped at the root).  The accumulator is reversed. -/
def normalizeAbs : List String → List String → List String
  | acc, [] => acc.reverse
  | acc, "." :: rest => normalizeAbs acc rest
  | acc, ".." :: rest => normalizeAbs acc.tail rest
  | acc, s :: rest => normalizeAbs (s :: acc) rest

/-- Resolve a path against the (already absolute) cwd segment list,
as Node `path.posix.resolve` does. -/
def resolveSegs (cwd : List String) (p : String) : List String :=
  if isAbsolute p then normalizeAbs [] (nonEmptySegs p)
  else normalizeAbs [] (cwd ++ nonEmptySegs p)

/-- Drop the common leading segments of two segment lists. -/
def dropCommon : List String → List String → List String × List String
  | a :: as, b :: bs =>
    if a = b then dropCommon as bs else (a :: as, b :: bs)
  | as, bs => (as, bs)

/-- Node `path.posix.relative(fromP, toP)` with an explicit cwd. -/
def pathRelative (cwd : List String) (fromP toP : String) : String :=
  String.intercalate "/"
    ((dropCommon (resolveSegs cwd fromP) (resolveSegs cwd toP)).1.map (fun _ => "..") ++
      (dropCommon (resolveSegs cwd fromP) (resolveSegs cwd toP)).2)

/-! ## The generator pipeline -/

/-- A raw directory entry as returned by the recursive `fs.readdir`. -/
structure DirEnt where
  name : String
  parentPath : String
  isDirectory : Bool
  deriving DecidableEq

/-- The mapped entry record built in the source (name, cleaned parent
path, directory flag). -/
structure ScannedFile where
  name : String
  path : String
  directory : Bool
  deriving DecidableEq

/-- The `.map(...).filter((paths) => !paths.directory)` stage of the scan. -/
def scannedFiles (entries : List DirEnt) : List ScannedFile :=
  (entries.map (fun e => ScannedFile.mk e.name (cleanupPath e.parentPath) e.isDirectory)).filter
    (fun p => !p.directory)

/-- Destination directory: clean the destination, split on `/`, drop the
last segment, re-join. -/
def destinationPathOf (dest : String) : String :=
  String.intercalate "/" ((jsSplit '/' (cleanupPath dest)).dropLast)

/-- The popped last dot-separated segment of a file name, lower-cased:
JS `file.name.split(".").pop()?.toLowerCase()`. -/
def finalSegLower (name : String) : String :=
  toLowerStr ((jsSplit '.' name).getLastD "")

/-- The body of the per-file loop: split the name on `.`, pop the
extension, lower-case it; skip when the popped segment is empty or is
neither "js" nor "ts"; otherwise build the specifier from the relative
path and the remaining (extension-stripped) name segments. -/
def fileImport (cwd : List String) (destinationPath : String) (file : ScannedFile) : Option String :=
  if finalSegLower file.name = "" then none
  else if finalSegLower file.name ≠ "js" && finalSegLower file.name ≠ "ts" then none
  else
    some ("./" ++ cleanupPath (pathRelative cwd destinationPath file.path) ++ "/" ++
      String.intercalate "." (jsSplit '.' file.name).dropLast)

/-- The `listOfImports` array accumulated by the loop. -/
def listOfImports (cwd : List String) (dest : String) (entries : List DirEnt) : List String :=
  (scannedFiles entries).filterMap (fileImport cwd (destinationPathOf dest))

/-- JS `Array.prototype.map((x, i) => ...)` starting at index `n`. -/
def mapIdxFrom (f : Nat → α → β) : Nat → List α → List β
  | _, [] => []
  | i, x :: xs => f i x :: mapIdxFrom f (i + 1) xs

/-- The formatted import lines, one per specifier. -/
def importLines (quotes : Option String) (imports : List String) : List String :=
  mapIdxFrom
    (fun i imp =>
      "import route" ++ Nat.repr (i + 1) ++ " from " ++ jsOr quotes "'" ++ imp ++ jsOr quotes "'" ++ ";")
    0 imports

/-- The aggregate export line. -/
def exportLine (imports : List String) : String :=
  "export default [" ++
    String.intercalate ", " (mapIdxFrom (fun j _ => "route" ++ Nat.repr (j + 1)) 0 imports) ++ "];"

/-- The generated file text: import lines, a blank line, the export line,
a trailing blank line, joined with a newline. -/
def generatedFile (quotes : Option String) (imports : List String) : String :=
  String.intercalate "\n" (importLines quotes imports ++ [""] ++ [exportLine imports] ++ [""])

/-- Contents written to the destination for one mapping. -/
def generateFileContents (cwd : List String) (quotes : Option String) (dest : String)
    (entries : List DirEnt) : String :=
  generatedFile quotes (listOfImports cwd dest entries)

/-! ## Effects of one mapping (write, then optional formatter) -/

/-- Observable side effects of one mapping pass. -/
inductive Effect where
  | writeFile (destination contents : String)
  | execCommand (cmd : String)
  deriving DecidableEq

/-- The default formatter command built from the destination. -/
def defaultFormatCmd (destination : String) : String :=
  "prettier \"" ++ destination ++ "\" --write"

/-- JS `autoformatCommand || default`. -/
def formatCommand (autoformatCommand : Option String) (destination : String) : String :=
  jsOr autoformatCommand (defaultFormatCmd destination)

/-- The ordered effect trace of one mapping: the write always happens;
the formatter command is issued afterwards only when `autoformat` is
truthy. -/
def mappingEffects (cwd : List String) (autoformat : Option Bool)
    (autoformatCommand : Option String) (quotes : Option String) (dest : String)
    (entries : List DirEnt) : List Effect :=
  if !(autoformat.getD false) then
    [Effect.writeFile (cleanupPath dest) (generateFileContents cwd quotes dest entries)]
  else
    [Effect.writeFile (cleanupPath dest) (generateFileContents cwd quotes dest entries),
     Effect.execCommand (formatCommand autoformatCommand (cleanupPath dest))]

/-- The `exec` completion callback: rethrows the error when present. -/
def execCallback (err : Option String) : Except String Unit :=
  match err with
  | none => Except.ok ()
  | some e => Except.error e

/-! ## Spec-side renderings (for refinement comparisons) -/

/-- Eligibility of a raw listing entry as the claims phrase it: a
non-directory entry whose final dot-separated name segment, lower-cased,
is exactly "js" or "ts". -/
def eligibleEnt (e : DirEnt) : Bool :=
  !e.isDirectory && (finalSegLower e.name == "js" || finalSegLower e.name == "ts")

/-- The manifest text as the spec describes it: one import line per
entry with 1-based binding ordinals, a blank line, an export line whose
binding names enumerate 1..N positionally, a trailing blank line, all
joined with a single newline. -/
def manifestSpec (quotes : Option String) (imports : List String) : String :=
  String.intercalate "\n"
    (mapIdxFrom
        (fun i imp =>
          "import route" ++ Nat.repr (i + 1) ++ " from " ++ jsOr quotes "'" ++ imp ++
            jsOr quotes "'" ++ ";")
        0 imports ++
      ["",
       "export default [" ++
         String.intercalate ", "
           ((List.range imports.length).map (fun j => "route" ++ Nat.repr (j + 1))) ++ "];",
       ""])

/-! ## Sanity checks (concrete evaluations of the embedding) -/

example : jsSplit '.' "data.backup.ts" = ["data", "backup", "ts"] := by decide
example : jsSplit '.' "README" = ["README"] := by decide
example : cleanupPath "/././" = "/./" := by decide
example : cleanupPath "a\\.\\b" = "a/./b" := by decide
example : cleanupPath "./routes/api.ts" = "./routes/api.ts" := by decide
example : pathRelative ["home"] "routes" "routes/sub" = "sub" := by decide
example : pathRelative ["home"] "routes/a" "routes/b" = "../b" := by decide
example : pathRelative ["home"] "routes" "routes" = "" := by decide
example : destinationPathOf "./routes/api.ts" = "./routes" := by decide
example :
    fileImport ["home"] "./routes" (ScannedFile.mk "get.ts" "./routes/hi" false) =
      some "./hi/get" := by decide
example :
    fileImport ["home"] "routes" (ScannedFile.mk "ts" "routes/x" false) =
      some "./x/" := by decide
example : fileImport ["home"] "routes" (ScannedFile.mk "README" "routes" false) = none := by decide
example :
    generatedFile none ["./a/index", "./b/index"] =
      "import route1 from './a/index';\nimport route2 from './b/index';\n\nexport default [route1, route2];\n" := by
  decide

/-! ## Helper lemmas -/

theorem mapIdxFrom_length (f : Nat → α → β) (n : Nat) (l : List α) :
    (mapIdxFrom f n l).length = l.length := by
  induction l generalizing n with
  | nil => rfl
  | cons x xs ih => simp [mapIdxFrom, ih]

theorem mapIdxFrom_getElem? (f : Nat → α → β) (l : List α) (n i : Nat) (h : i < l.length) :
    (mapIdxFrom f n l)[i]? = some (f (n + i) l[i]) := by
  induction l generalizing n i with
  | nil => simp at h
  | cons x xs ih =>
    cases i with
    | zero => simp [mapIdxFrom]
    | succ j =>
      have hj : j < xs.length := by simpa using h
      have hadd : n + 1 + j = n + (j + 1) := by omega
      simp only [mapIdxFrom, List.getElem?_cons_succ, List.getElem_cons_succ]
      rw [ih (n + 1) j hj, hadd]

theorem mapIdxFrom_range (g : Nat → β) (l : List α) (n : Nat) :
    mapIdxFrom (fun j _ => g j) n l = (List.range l.length).map (fun j => g (n + j)) := by
  induction l generalizing n with
  | nil => rfl
  | cons x xs ih =>
    have hf : (fun j => g (n + 1 + j)) = fun j => g (n + (j + 1)) :=
      funext (fun j => by rw [Nat.add_assoc, Nat.add_comm 1 j])
    simp only [mapIdxFrom, List.length_cons, List.range_succ_eq_map, List.map_cons,
      List.map_map, ih (n + 1)]
    rw [show (fun j => g (n + j)) ∘ Nat.succ = fun j => g (n + (j + 1)) from funext (fun j => rfl)]
    rw [hf, Nat.add_zero]

theorem fileImport_isSome (cwd : List String) (dp : String) (f : ScannedFile) :
    (fileImport cwd dp f).isSome =
      (finalSegLower f.name == "js" || finalSegLower f.name == "ts") := by
  unfold fileImport
  by_cases h0 : finalSegLower f.name = ""
  · rw [if_pos h0, h0]; rfl
  · rw [if_neg h0]
    by_cases hj : finalSegLower f.name = "js"
    · rw [hj]; rfl
    · by_cases ht : finalSegLower f.name = "ts"
      · rw [ht]; rfl
      · rw [if_pos (by simp [hj, ht])]
        simp [hj, ht]

theorem fileImport_eq_of_ext (cwd : List String) (dp : String) (f : ScannedFile)
    (h : finalSegLower f.name = "js" ∨ finalSegLower f.name = "ts") :
    fileImport cwd dp f =
      some ("./" ++ cleanupPath (pathRelative cwd dp f.path) ++ "/" ++
        String.intercalate "." (jsSplit '.' f.name).dropLast) := by
  unfold fileImport
  rcases h with h | h <;> rw [h] <;> rfl

theorem dropCommon_self (l : List String) : dropCommon l l = ([], []) := by
  induction l with
  | nil => rfl
  | cons a as ih => unfold dropCommon; rw [if_pos rfl]; exact ih

theorem pathRelative_same (cwd : List String) (a b : String)
    (h : resolveSegs cwd b = resolveSegs cwd a) : pathRelative cwd a b = "" := by
  unfold pathRelative
  rw [h, dropCommon_self]
  rfl

theorem splitChar_no_sep (c : Char) (l : List Char) (h : l.all (fun x => x != c) = true) :
    splitChar c l = [l] := by
  induction l with
  | nil => rfl
  | cons x xs ih =>
    simp only [List.all_cons, Bool.and_eq_true, bne_iff_ne] at h
    unfold splitChar
    rw [ih h.2]
    simp [h.1]

theorem jsSplit_no_sep (c : Char) (s : String) (h : s.data.all (fun x => x != c) = true) :
    jsSplit c s = [s] := by
  unfold jsSplit
  rw [splitChar_no_sep c s.data h]
  rfl

theorem replaceBackslash_all (l : List Char) :
    (replaceBackslash l).all (fun x => x != '\\') = true := by
  unfold replaceBackslash
  rw [List.all_map]
  apply List.all_eq_true.mpr
  intro x _
  by_cases h : x = '\\' <;> simp [h]

theorem listOfImports_length (cwd : List String) (dest : String) (entries : List DirEnt) :
    (listOfImports cwd dest entries).length = (entries.filter eligibleEnt).length := by
  unfold listOfImports scannedFiles
  rw [List.length_filterMap_eq_countP, List.countP_filter, List.countP_map,
    ← List.countP_eq_length_filter]
  apply List.countP_congr
  intro e _
  simp only [Function.comp_apply, fileImport_isSome, eligibleEnt]
  rw [Bool.and_comm]

/-! ## Claims -/

/-- C1: for every configured mapping and every fixed listing, the number
of import statements in the generated manifest equals the number of
scanned non-directory entries whose final dot-separated name segment,
lower-cased, is exactly "js" or "ts"; no other extension survives. -/
theorem C1_import_count (cwd : List String) (quotes : Option String) (dest : String)
    (entries : List DirEnt) :
    (importLines quotes (listOfImports cwd dest entries)).length =
      (entries.filter eligibleEnt).length := by
  unfold importLines
  rw [mapIdxFrom_length, listOfImports_length]

/-- C2: binding names in a generated manifest are exactly route1..routeN
in positional order with no gaps, and the export statement enumerates
the same binding names in the same positional order. -/
theorem C2_binding_names (quotes : Option String) (imports : List String) :
    (importLines quotes imports).length = imports.length ∧
    (∀ i, ∀ h : i < imports.length,
      (importLines quotes imports)[i]? =
        some ("import route" ++ Nat.repr (i + 1) ++ " from " ++ jsOr quotes "'" ++
          imports[i] ++ jsOr quotes "'" ++ ";")) ∧
    exportLine imports =
      "export default [" ++
        String.intercalate ", "
          ((List.range imports.length).map (fun j => "route" ++ Nat.repr (j + 1))) ++ "];" := by
  refine ⟨?_, ?_, ?_⟩
  · unfold importLines
    exact mapIdxFrom_length _ 0 imports
  · intro i h
    unfold importLines
    rw [mapIdxFrom_getElem? _ imports 0 i h]
    simp only [Nat.zero_add]
  · unfold exportLine
    rw [mapIdxFrom_range]
    simp only [Nat.zero_add]

/-- C2 witness at a concrete two-element import list. -/
theorem C2_binding_names_witness :
    (importLines none ["./a/x", "./b/y"])[1]? =
      some ("import route" ++ Nat.repr 2 ++ " from " ++ jsOr none "'" ++
        "./b/y" ++ jsOr none "'" ++ ";") :=
  (C2_binding_names none ["./a/x", "./b/y"]).2.1 1 (by decide)

/-- C3: the manifest text is one import line per entry with the
configured quote (default a single quote), a blank line, the export
line, and a trailing blank line, joined by single newlines. -/
theorem C3_manifest_text (quotes : Option String) (imports : List String) :
    generatedFile quotes imports = manifestSpec quotes imports ∧
    generatedFile none imports = generatedFile (some "'") imports := by
  constructor
  · unfold generatedFile manifestSpec importLines exportLine
    rw [mapIdxFrom_range]
    simp only [Nat.zero_add, List.append_assoc]
    rfl
  · rfl

/-- C4: a filtered file's import specifier is "./" plus the cleaned
relative path from the destination directory to the file's directory,
plus "/", plus the name with only its final dot-separated segment
removed (casing and internal dots preserved). -/
theorem C4_specifier (cwd : List String) (destinationPath : String) (f : ScannedFile)
    (h : finalSegLower f.name = "js" ∨ finalSegLower f.name = "ts") :
    fileImport cwd destinationPath f =
      some ("./" ++ cleanupPath (pathRelative cwd destinationPath f.path) ++ "/" ++
        String.intercalate "." (jsSplit '.' f.name).dropLast) :=
  fileImport_eq_of_ext cwd destinationPath f h

/-- C4 witness: a file named data.backup.ts keeps its internal dot and
yields specifier suffix data.backup. -/
theorem C4_specifier_witness :
    (finalSegLower "data.backup.ts" = "js" ∨ finalSegLower "data.backup.ts" = "ts") ∧
    fileImport ["home"] "routes" (ScannedFile.mk "data.backup.ts" "routes/sub" false) =
      some "./sub/data.backup" :=
  ⟨Or.inr (by decide), by
    rw [C4_specifier ["home"] "routes" (ScannedFile.mk "data.backup.ts" "routes/sub" false)
      (Or.inr (by decide))]
    decide⟩

/-- C5 counterexample: a non-directory entry named just "ts" has no dot
in its name, yet it is not skipped: it produces the import specifier
"./x/" (with an empty base name). -/
theorem C5_counterexample :
    ("ts".data.all (fun c => c != '.')) = true ∧
    fileImport ["home"] "routes" (ScannedFile.mk "ts" "routes/x" false) = some "./x/" ∧
    fileImport ["home"] "routes" (ScannedFile.mk "ts" "routes/x" false) ≠ none :=
  ⟨by decide, by decide, by decide⟩

/-- C5 (amended): a scanned non-directory entry whose name contains no
dot is silently skipped unless its lower-cased whole name is exactly
"js" or "ts" (in which case the whole name is consumed as the extension
and an import entry with an empty base name is produced). -/
theorem C5_no_extension_skipped (cwd : List String) (dp : String) (f : ScannedFile)
    (hnd : f.name.data.all (fun c => c != '.') = true)
    (hjs : toLowerStr f.name ≠ "js") (hts : toLowerStr f.name ≠ "ts") :
    fileImport cwd dp f = none := by
  have hsplit : jsSplit '.' f.name = [f.name] := jsSplit_no_sep '.' f.name hnd
  have hseg : finalSegLower f.name = toLowerStr f.name := by
    unfold finalSegLower
    rw [hsplit]
    rfl
  unfold fileImport
  rw [hseg]
  by_cases he : toLowerStr f.name = ""
  · rw [if_pos he]
  · rw [if_neg he, if_pos (by simp [hjs, hts])]

/-- C5 witness: a file named README (no dot, not js/ts) yields no entry. -/
theorem C5_no_extension_skipped_witness :
    fileImport ["home"] "routes" (ScannedFile.mk "README" "routes" false) = none :=
  C5_no_extension_skipped ["home"] "routes" (ScannedFile.mk "README" "routes" false)
    (by decide) (by decide) (by decide)

/-- C6 counterexample: normalization is a single non-overlapping pass
performed before backslash conversion, so the output can still contain
a "/./" segment: "/././" maps to "/./" and a backslash-dot-backslash
path maps to a surviving "/./". -/
theorem C6_counterexample :
    hasDotSeg (cleanupPath "/././").data = true ∧
    hasDotSeg (cleanupPath "a\\.\\b").data = true ∧
    cleanupPath "/././" = "/./" ∧
    cleanupPath "a\\.\\b" = "a/./b" :=
  ⟨by decide, by decide, by decide, by decide⟩

/-- C6 (amended): normalization performs one left-to-right
non-overlapping replacement of "/./" by "/" and then converts every
backslash to a forward slash; no backslash remains, but "/./" segments
may survive.  Each scanned entry's stored directory is the normalized
parent path. -/
theorem C6_cleanup_amended (p : String) (entries : List DirEnt) :
    (cleanupPath p).data.all (fun c => c != '\\') = true ∧
    cleanupPath p = String.mk (replaceBackslash (replaceSlashDotSlash p.data)) ∧
    (∀ f, f ∈ scannedFiles entries →
      ∃ e, e ∈ entries ∧ f.path = cleanupPath e.parentPath ∧ f.name = e.name) := by
  refine ⟨replaceBackslash_all _, rfl, ?_⟩
  intro f hf
  unfold scannedFiles at hf
  rw [List.mem_filter] at hf
  rcases List.mem_map.mp hf.1 with ⟨e, he, hfe⟩
  exact ⟨e, he, by rw [← hfe], by rw [← hfe]⟩

/-- C6 witness at a concrete backslashed path. -/
theorem C6_cleanup_amended_witness :
    (cleanupPath "a\\.\\b").data.all (fun c => c != '\\') = true :=
  (C6_cleanup_amended "a\\.\\b" []).1

/-- C7: generation is a pure function of the configuration and the
listing: equal listings give byte-identical contents. -/
theorem C7_deterministic (cwd : List String) (quotes : Option String) (dest : String)
    (entries1 entries2 : List DirEnt) (h : entries1 = entries2) :
    generateFileContents cwd quotes dest entries1 =
      generateFileContents cwd quotes dest entries2 := by
  rw [h]

/-- C7 witness at a concrete listing. -/
theorem C7_deterministic_witness :
    generateFileContents [] none "./r/api.ts" [DirEnt.mk "a.ts" "./r" false] =
      generateFileContents [] none "./r/api.ts" [DirEnt.mk "a.ts" "./r" false] :=
  C7_deterministic [] none "./r/api.ts" [DirEnt.mk "a.ts" "./r" false]
    [DirEnt.mk "a.ts" "./r" false] rfl

/-- C8: when no file survives the filter, the manifest has zero import
lines: a blank line, the export-default-empty line, and a trailing
blank line. -/
theorem C8_empty_manifest (cwd : List String) (quotes : Option String) (dest : String)
    (entries : List DirEnt) (h : listOfImports cwd dest entries = []) :
    generateFileContents cwd quotes dest entries = "\nexport default [];\n" ∧
    importLines quotes (listOfImports cwd dest entries) = [] := by
  unfold generateFileContents generatedFile
  rw [h]
  exact ⟨rfl, rfl⟩

/-- C8 witness: a listing holding only a directory entry survives
nothing. -/
theorem C8_empty_manifest_witness :
    listOfImports [] "./r/api.ts" [DirEnt.mk "sub" "./r" true] = [] ∧
    generateFileContents [] none "./r/api.ts" [DirEnt.mk "sub" "./r" true] =
      "\nexport default [];\n" :=
  ⟨by decide,
   (C8_empty_manifest [] none "./r/api.ts" [DirEnt.mk "sub" "./r" true] (by decide)).1⟩

/-- C9: the formatter command appears in the effect trace exactly when
autoformat is enabled, and only at position 1, after the write at
position 0; the completion callback rethrows a present error and raises
nothing on success. -/
theorem C9_formatter_effects (cwd : List String) (autoformat : Option Bool)
    (autoformatCommand : Option String) (quotes : Option String) (dest : String)
    (entries : List DirEnt) :
    ((∃ c, Effect.execCommand c ∈
        mappingEffects cwd autoformat autoformatCommand quotes dest entries) ↔
      autoformat.getD false = true) ∧
    (mappingEffects cwd autoformat autoformatCommand quotes dest entries).head? =
      some (Effect.writeFile (cleanupPath dest) (generateFileContents cwd quotes dest entries)) ∧
    (∀ i c,
      (mappingEffects cwd autoformat autoformatCommand quotes dest entries)[i]? =
          some (Effect.execCommand c) →
        i = 1 ∧ c = formatCommand autoformatCommand (cleanupPath dest)) ∧
    (∀ e, execCallback (some e) = Except.error e) ∧
    execCallback none = Except.ok () := by
  unfold mappingEffects
  cases autoformat.getD false
  · refine ⟨?_, rfl, ?_, fun e => rfl, rfl⟩
    · constructor
      · rintro ⟨c, hc⟩
        simp at hc
      · intro h
        exact absurd h (by decide)
    · intro i c hc
      rcases i with _ | _ | j <;> simp at hc
  · refine ⟨?_, rfl, ?_, fun e => rfl, rfl⟩
    · exact ⟨fun _ => rfl,
        fun _ => ⟨formatCommand autoformatCommand (cleanupPath dest), by simp⟩⟩
    · intro i c hc
      rcases i with _ | _ | j <;> simp at hc
      exact ⟨rfl, hc.symm⟩

/-- C9 witness: with autoformat enabled, index 1 of the trace is the
default prettier command, and a failing callback rethrows. -/
theorem C9_formatter_effects_witness :
    (∃ c, Effect.execCommand c ∈ mappingEffects [] (some true) none none "./r/api.ts" []) ∧
    (1 = 1 ∧
      "prettier \"./r/api.ts\" --write" = formatCommand none (cleanupPath "./r/api.ts")) ∧
    execCallback (some "boom") = Except.error "boom" :=
  ⟨(C9_formatter_effects [] (some true) none none "./r/api.ts" []).1.mpr rfl,
   (C9_formatter_effects [] (some true) none none "./r/api.ts" []).2.2.1 1
     "prettier \"./r/api.ts\" --write" (by decide),
   (C9_formatter_effects [] (some true) none none "./r/api.ts" []).2.2.2.1 "boom"⟩

/-- C10: when a filtered file's resolved containing directory equals the
resolved destination directory, the relative directory is empty and the
specifier begins with ".//" (a double slash). -/
theorem C10_same_dir_double_slash (cwd : List String) (destinationPath : String)
    (f : ScannedFile)
    (hext : finalSegLower f.name = "js" ∨ finalSegLower f.name = "ts")
    (hsame : resolveSegs cwd f.path = resolveSegs cwd destinationPath) :
    fileImport cwd destinationPath f =
      some (".//" ++ String.intercalate "." (jsSplit '.' f.name).dropLast) := by
  rw [fileImport_eq_of_ext cwd destinationPath f hext,
    pathRelative_same cwd destinationPath f.path hsame]
  rfl

/-- C10 witness: a source file sitting in the destination directory
itself gets the double-slash specifier ".//a". -/
theorem C10_same_dir_double_slash_witness :
    fileImport ["home"] "routes" (ScannedFile.mk "a.ts" "routes" false) = some ".//a" :=
  by
    rw [C10_same_dir_double_slash ["home"] "routes" (ScannedFile.mk "a.ts" "routes" false)
      (Or.inr (by decide)) (by decide)]
    decide

end HonoRouteGen
